import Mathlib

/-!
Shallow embedding of the `DataManager` class from `src/js/dataManager.js` of the
portal_site repository, together with theorems settling the specification claims
about it.

Modelling conventions:
* JS objects for links carry a field only when it was supplied, so `Link` keeps
  the five payload fields as `Option String`; `id` is always present on stored
  links.  Caller-supplied `linkData` objects are modelled by `LinkData`, whose
  `id` field records that JS object spread / `Object.assign` let a caller-supplied
  `id` override the store-generated one.
* `Date.now()` and `Math.floor(Math.random() * 1000)` are modelled as explicit
  numeric arguments (`now`, `rand`) threaded into every operation that calls
  `_generateId`; `addBulkLinks` receives one draw per processed link.
* The `onDirty` callback is modelled by a presence flag `hasOnDirty` and an
  invocation counter `dirtyCalls` incremented by `markAsDirty` exactly when a
  callback is registered, mirroring `if (this.onDirty) this.onDirty()`.
* The Transport boundary (fetch / FileReader / Blob download) is modelled at the
  level of parsed JS values: `JSON.parse (JSON.stringify v)` is the identity on
  the acyclic plain data involved, so the document handed to or received from the
  boundary is a `Doc` value, and I/O failures are an `Except` error.
-/

/-- Decimal digits of a natural number, least significant first, with explicit
structural fuel so the definition evaluates by kernel reduction.  Models the
decimal rendering performed by the JS template literal on a number. -/
def digitsRevAux : Nat → Nat → List Nat
  | 0, _ => []
  | fuel + 1, n => if n = 0 then [] else n % 10 :: digitsRevAux fuel (n / 10)

/-- Decimal string of a natural number, as produced by JS number-to-string
conversion inside a template literal. -/
def natToStr (n : Nat) : String :=
  if n = 0 then "0" else String.mk (((digitsRevAux n n).map Nat.digitChar).reverse)

/-- `_generateId(prefix)` from dataManager.js line 89: the string
`pre ++ "_" ++ Date.now() ++ "_" ++ Math.floor(Math.random()*1000)`, with the
time and random draws passed explicitly. -/
def generateId (pre : String) (now rand : Nat) : String :=
  pre ++ "_" ++ natToStr now ++ "_" ++ natToStr rand

/-- A stored link object.  `id` is always present on objects built by the store;
the payload fields are present exactly when supplied. -/
structure Link where
  id : String
  title : Option String
  url : Option String
  icon : Option String
  badge : Option String
  memo : Option String
deriving DecidableEq

/-- A caller-supplied `linkData` object: every field, including `id`, may be
present or absent. -/
structure LinkData where
  id : Option String
  title : Option String
  url : Option String
  icon : Option String
  badge : Option String
  memo : Option String
deriving DecidableEq

/-- A category object as stored in `this.data`. -/
structure Category where
  id : String
  title : String
  isOpen : Bool
  links : List Link
deriving DecidableEq

instance : Inhabited Category :=
  ⟨{ id := "", title := "", isOpen := true, links := [] }⟩

/-- JS `{ id: generatedId, ...linkData }` (dataManager.js lines 275-278 and
341-344): the spread comes after the generated id, so a caller-supplied `id`
field overrides the generated one. -/
def mkLinkFromData (genId : String) (d : LinkData) : Link :=
  { id := d.id.getD genId
    title := d.title
    url := d.url
    icon := d.icon
    badge := d.badge
    memo := d.memo }

/-- Field-level behaviour of `Object.assign`: a field present in the update wins,
an absent field keeps the stored value. -/
def mergeField (new old : Option String) : Option String :=
  match new with
  | some v => some v
  | none => old

/-- JS `Object.assign(link, linkData)` (dataManager.js line 294). -/
def assignLink (l : Link) (d : LinkData) : Link :=
  { id := d.id.getD l.id
    title := mergeField d.title l.title
    url := mergeField d.url l.url
    icon := mergeField d.icon l.icon
    badge := mergeField d.badge l.badge
    memo := mergeField d.memo l.memo }

/-- Apply `f` to the first element satisfying `p`, leaving the rest unchanged:
the effect of mutating the object returned by `Array.prototype.find`. -/
def updateFirst (p : α → Bool) (f : α → α) : List α → List α
  | [] => []
  | x :: xs => if p x then f x :: xs else x :: updateFirst p f xs

/-- The in-memory state of a `DataManager` instance: the active portal's
categories, the all-portals map (as an association list in JS object key order),
the dirty flag, whether an `onDirty` callback is registered, and how many times
the callback has been invoked. -/
structure DataManager where
  data : List Category
  allPortals : List (String × List Category)
  hasUnsavedChanges : Bool
  hasOnDirty : Bool
  dirtyCalls : Nat
deriving DecidableEq

/-- `getCategory(id)` (line 51): first stored category with that id. -/
def DataManager.getCategory (s : DataManager) (id : String) : Option Category :=
  s.data.find? (fun c => c.id == id)

/-- `getLink(catId, linkId)` (line 61): the link inside the found category, and
a not-found signal when the category itself is absent. -/
def DataManager.getLink (s : DataManager) (catId linkId : String) : Option Link :=
  match s.getCategory catId with
  | some cat => cat.links.find? (fun l => l.id == linkId)
  | none => none

/-- `markAsDirty()` (line 69): set the flag and invoke the callback when one is
registered. -/
def DataManager.markAsDirty (s : DataManager) : DataManager :=
  { s with
    hasUnsavedChanges := true
    dirtyCalls := if s.hasOnDirty then s.dirtyCalls + 1 else s.dirtyCalls }

/-- `markAsClean()` (line 79): clear the flag, no callback. -/
def DataManager.markAsClean (s : DataManager) : DataManager :=
  { s with hasUnsavedChanges := false }

/-- `getData()` (line 42): `JSON.parse(JSON.stringify(this.data))`, a deep copy;
at the level of values it returns the current category list. -/
def DataManager.getData (s : DataManager) : List Category :=
  s.data

/-- `addCategory(title)` (line 217): push a fresh category and mark dirty. -/
def DataManager.addCategory (s : DataManager) (title : String) (now rand : Nat) :
    DataManager :=
  DataManager.markAsDirty { s with
    data := s.data ++
      [{ id := generateId "cat" now rand, title := title, isOpen := true, links := [] }] }

/-- `updateCategory(id, title)` (line 232): mutate the found category's title and
mark dirty; silent no-op when the id is unknown. -/
def DataManager.updateCategory (s : DataManager) (id title : String) : DataManager :=
  match s.getCategory id with
  | none => s
  | some _ =>
    DataManager.markAsDirty { s with
      data := updateFirst (fun c => c.id == id) (fun c => { c with title := title }) s.data }

/-- `deleteCategory(id)` (line 244): filter out every category with that id and
mark dirty exactly when the list got shorter. -/
def DataManager.deleteCategory (s : DataManager) (id : String) : DataManager :=
  let newData := s.data.filter (fun c => !(c.id == id))
  if newData.length < s.data.length then DataManager.markAsDirty { s with data := newData }
  else { s with data := newData }

/-- `moveCategory(fromIndex, toIndex)` (line 257): bounds-checked
splice-remove / splice-insert; JS `splice(start, 0, x)` clamps `start` to the
array length, hence the `min`. -/
def DataManager.moveCategory (s : DataManager) (fromIndex toIndex : Int) : DataManager :=
  if fromIndex < 0 ∨ fromIndex ≥ (s.data.length : Int) ∨ toIndex < 0 ∨
      toIndex > (s.data.length : Int) then s
  else
    match s.data[fromIndex.toNat]? with
    | none => s
    | some item =>
      let removed := s.data.eraseIdx fromIndex.toNat
      DataManager.markAsDirty { s with
        data := removed.insertIdx (min toIndex.toNat removed.length) item }

/-- `addLink(catId, linkData)` (line 272): push `{id: generated, ...linkData}`
onto the found category's links and mark dirty; no-op when the category is
unknown. -/
def DataManager.addLink (s : DataManager) (catId : String) (d : LinkData)
    (now rand : Nat) : DataManager :=
  match s.getCategory catId with
  | none => s
  | some _ =>
    DataManager.markAsDirty { s with
      data := updateFirst (fun c => c.id == catId)
        (fun c => { c with links := c.links ++ [mkLinkFromData (generateId "link" now rand) d] })
        s.data }

/-- `updateLink(catId, linkId, linkData)` (line 289): `Object.assign` onto the
found link and mark dirty; no-op when category or link is unknown. -/
def DataManager.updateLink (s : DataManager) (catId linkId : String) (d : LinkData) :
    DataManager :=
  match s.getCategory catId with
  | none => s
  | some cat =>
    match cat.links.find? (fun l => l.id == linkId) with
    | none => s
    | some _ =>
      DataManager.markAsDirty { s with
        data := updateFirst (fun c => c.id == catId)
          (fun c =>
            { c with
              links := updateFirst (fun l => l.id == linkId) (fun l => assignLink l d) c.links })
          s.data }

/-- `deleteLink(catId, linkId)` (line 305): filter the found category's links and
mark dirty exactly when its link list got shorter. -/
def DataManager.deleteLink (s : DataManager) (catId linkId : String) : DataManager :=
  match s.getCategory catId with
  | none => s
  | some cat =>
    let s' : DataManager :=
      { s with
        data := updateFirst (fun c => c.id == catId)
          (fun c => { c with links := c.links.filter (fun l => !(l.id == linkId)) })
          s.data }
    if (cat.links.filter (fun l => !(l.id == linkId))).length < cat.links.length then
      s'.markAsDirty
    else s'

/-- `moveLink(catIndex, fromIndex, toIndex)` (line 322): `this.data[catIndex]`
yields `undefined` for any out-of-range (or negative) index, then the same
bounds-checked splice pair as `moveCategory`, scoped to that category's links. -/
def DataManager.moveLink (s : DataManager) (catIndex fromIndex toIndex : Int) :
    DataManager :=
  match (if catIndex < 0 then none else s.data[catIndex.toNat]?) with
  | none => s
  | some cat =>
    if fromIndex < 0 ∨ fromIndex ≥ (cat.links.length : Int) ∨ toIndex < 0 ∨
        toIndex > (cat.links.length : Int) then s
    else
      match cat.links[fromIndex.toNat]? with
      | none => s
      | some item =>
        let removed := cat.links.eraseIdx fromIndex.toNat
        DataManager.markAsDirty { s with
          data := s.data.set catIndex.toNat
            { cat with links := removed.insertIdx (min toIndex.toNat removed.length) item } }

/-- `addBulkLinks(catId, links)` (line 338): map each supplied link object to
`{id: generated, ...link}` (one time/random draw per link), append them all, and
mark dirty once; no-op when the category is unknown. -/
def DataManager.addBulkLinks (s : DataManager) (catId : String) (links : List LinkData)
    (draws : Nat → Nat × Nat) : DataManager :=
  match s.getCategory catId with
  | none => s
  | some _ =>
    let newLinks := links.enum.map
      (fun p => mkLinkFromData (generateId "link" (draws p.1).1 (draws p.1).2) p.2)
    DataManager.markAsDirty { s with
      data := updateFirst (fun c => c.id == catId)
        (fun c => { c with links := c.links ++ newLinks }) s.data }

/-! Persistence boundary. -/

/-- Failures observable at the load/import boundary. -/
inductive JsError where
  | fetchFailed
  | httpError (status : Nat)
  | parseError
  | typeError
  | invalidFormat
deriving DecidableEq

/-- The shapes a successfully parsed JSON document can take, as far as the load
paths distinguish them: a top-level array of categories (legacy), an object with
or without a usable `portals` member, JSON `null` (on which `parsed.portals`
throws a TypeError), or a primitive (whose property access yields `undefined`). -/
inductive Doc where
  | arr (cats : List Category)
  | obj (portals : Option (List (String × List Category)))
  | jsNull
  | prim
deriving DecidableEq

/-- The structured result object `load` resolves with. -/
inductive LoadResult where
  | ok (data : List Category)
  | err (e : JsError)
deriving DecidableEq

/-- JS object key update `obj[k] = v`: replace in place when the key exists,
append (insertion order) when it does not. -/
def updateAssoc (ps : List (String × List Category)) (k : String)
    (v : List Category) : List (String × List Category) :=
  if ps.any (fun p => p.1 == k) then ps.map (fun p => if p.1 == k then (k, v) else p)
  else ps ++ [(k, v)]

/-- `load(portalId)` (line 120).  The fetch-and-parse outcome is the `fetched`
argument: an error for a network failure, a non-ok HTTP status, or a JSON parse
failure; otherwise the parsed document.  The body then dispatches on the
document shape exactly as lines 127-134 do, with `parsed.portals` on `null`
raising a TypeError that the surrounding catch turns into a failure result. -/
def DataManager.load (s : DataManager) (portalId : String)
    (fetched : Except JsError Doc) : DataManager × LoadResult :=
  match fetched with
  | .error e => (s, .err e)
  | .ok doc =>
    match doc with
    | .jsNull => (s, .err .typeError)
    | .arr cats =>
      let ap : List (String × List Category) := [("default", cats)]
      let nd := (ap.lookup portalId).getD []
      ({ s with allPortals := ap, data := nd }, .ok nd)
    | .obj (some ps) =>
      let nd := (ps.lookup portalId).getD []
      ({ s with allPortals := ps, data := nd }, .ok nd)
    | .obj none => ({ s with allPortals := [], data := [] }, .ok [])
    | .prim => ({ s with allPortals := [], data := [] }, .ok [])

/-- `importData(file, portalId)` (line 174).  The file-read-and-parse outcome is
the `fileRead` argument.  The shape test
`json && typeof json === 'object' && !Array.isArray(json) && json.portals`
accepts exactly an object with a truthy `portals` member; an array updates the
current portal's entry; everything else throws `'Invalid data format.'` before
any state is touched.  The second component is the rethrown error, if any. -/
def DataManager.importData (s : DataManager) (portalId : String)
    (fileRead : Except JsError Doc) : DataManager × Option JsError :=
  match fileRead with
  | .error e => (s, some e)
  | .ok doc =>
    match doc with
    | .obj (some ps) =>
      let nd := (ps.lookup portalId).getD []
      (DataManager.markAsDirty { s with allPortals := ps, data := nd }, none)
    | .arr cats =>
      let ap := updateAssoc s.allPortals portalId cats
      let nd := (ap.lookup portalId).getD []
      (DataManager.markAsDirty { s with allPortals := ap, data := nd }, none)
    | .obj none => (s, some .invalidFormat)
    | .jsNull => (s, some .invalidFormat)
    | .prim => (s, some .invalidFormat)

/-- `save(portalId)` (line 196): write the active data into `allPortals`, hand
`JSON.stringify({portals: this.allPortals}, null, 2)` to the download sink, and
mark clean.  The second component is the sink document as a parsed value. -/
def DataManager.save (s : DataManager) (portalId : String) : DataManager × Doc :=
  let ap := updateAssoc s.allPortals portalId s.data
  (DataManager.markAsClean { s with allPortals := ap }, Doc.obj (some ap))

/-! Sequences of id-generating calls, for the id-uniqueness claim. -/

/-- One id-generating call: `addCategory(title)` or `addLink(catId, linkData)`. -/
inductive AddOp where
  | cat (title : String)
  | link (catId : String) (d : LinkData)
deriving DecidableEq

/-- The id namespace used by the call. -/
def AddOp.pre : AddOp → String
  | .cat _ => "cat"
  | .link _ _ => "link"

/-- Run a sequence of `addCategory`/`addLink` calls, each with its `(Date.now(),
random)` draw, collecting the ids actually generated (an `addLink` on a missing
category never reaches `_generateId`). -/
def runAddOps : DataManager → List (AddOp × Nat × Nat) → DataManager × List String
  | s, [] => (s, [])
  | s, (op, now, rand) :: rest =>
    match op with
    | .cat title =>
      let p := runAddOps (s.addCategory title now rand) rest
      (p.1, generateId "cat" now rand :: p.2)
    | .link catId d =>
      match s.getCategory catId with
      | none => runAddOps s rest
      | some _ =>
        let p := runAddOps (s.addLink catId d now rand) rest
        (p.1, generateId "link" now rand :: p.2)

/-! Reference-level model for the deep-copy isolation claim.  `getData` returns
`JSON.parse(JSON.stringify(this.data))`: structurally equal objects at entirely
fresh heap addresses.  The heap is modelled at category granularity: one cell
per category object (a cell value embeds the whole category including its links,
so overwriting a cell subsumes field writes and link insertions/removals on that
category), the store's array holds cell addresses, and a deep copy allocates
fresh addresses above the allocation watermark. -/

structure HeapStore where
  next : Nat
  cells : List (Nat × Category)
  addrs : List Nat
deriving DecidableEq

/-- Dereference an address. -/
def lookupCell (cells : List (Nat × Category)) (a : Nat) : Option Category :=
  cells.lookup a

/-- Every address reachable from the store is below the allocation watermark. -/
def HeapStore.wf (h : HeapStore) : Prop :=
  ∀ a ∈ h.addrs, a < h.next

instance (h : HeapStore) : Decidable h.wf := by
  unfold HeapStore.wf
  infer_instance

/-- The category values the store currently holds, read through the heap. -/
def readData (h : HeapStore) : List Category :=
  h.addrs.map (fun a => (lookupCell h.cells a).getD default)

/-- `getData()` in the reference model: allocate a fresh cell per category
holding a copy of its value, leaving the store's own addresses untouched.
Returns the extended heap and the snapshot's (fresh) addresses. -/
def copySnapshot (h : HeapStore) : HeapStore × List Nat :=
  let vals := h.addrs.map (fun a => (lookupCell h.cells a).getD default)
  let fresh := (List.range h.addrs.length).map (fun i => h.next + i)
  ({ next := h.next + h.addrs.length
     cells := h.cells ++ fresh.zip vals
     addrs := h.addrs }, fresh)

/-- Overwrite the cell at address `b` with a new category value (any external
mutation of that object). -/
def writeCell (cells : List (Nat × Category)) (b : Nat) (c : Category) :
    List (Nat × Category) :=
  cells.map (fun p => if p.1 = b then (b, c) else p)

/-- Apply a sequence of external writes. -/
def applyWrites (cells : List (Nat × Category)) (ws : List (Nat × Category)) :
    List (Nat × Category) :=
  ws.foldl (fun cs w => writeCell cs w.1 w.2) cells

/-! Theory of the generated id strings. -/

theorem digitsRevAux_eq_digits :
    ∀ (fuel n : Nat), n ≤ fuel → digitsRevAux fuel n = Nat.digits 10 n := by
  intro fuel
  induction fuel with
  | zero =>
    intro n hn
    interval_cases n
    simp [digitsRevAux]
  | succ f ih =>
    intro n hn
    by_cases h0 : n = 0
    · simp [digitsRevAux, h0]
    · have hpos : 0 < n := Nat.pos_of_ne_zero h0
      have hdiv : n / 10 ≤ f := by
        have := Nat.div_lt_self hpos (by norm_num : 1 < 10)
        omega
      rw [Nat.digits_def' (by norm_num : 1 < 10) hpos]
      simp [digitsRevAux, h0, ih _ hdiv]

theorem digitsRevAux_lt_ten :
    ∀ (fuel n d : Nat), d ∈ digitsRevAux fuel n → d < 10 := by
  intro fuel
  induction fuel with
  | zero => intro n d hd; simp [digitsRevAux] at hd
  | succ f ih =>
    intro n d hd
    by_cases h0 : n = 0
    · simp [digitsRevAux, h0] at hd
    · simp [digitsRevAux, h0] at hd
      rcases hd with hd | hd
      · omega
      · exact ih _ _ hd

theorem digitChar_ne_underscore : ∀ d, d < 10 → Nat.digitChar d ≠ '_' := by decide

theorem digitChar_inj_lt :
    ∀ a, a < 10 → ∀ b, b < 10 → Nat.digitChar a = Nat.digitChar b → a = b := by decide

theorem natToStr_no_underscore (n : Nat) : '_' ∉ (natToStr n).data := by
  unfold natToStr
  by_cases h0 : n = 0
  · simp [h0]
  · simp [h0]
    intro d hd
    exact digitChar_ne_underscore d (digitsRevAux_lt_ten n n d hd)

theorem mapDigitChar_inj :
    ∀ (l1 l2 : List Nat), (∀ d ∈ l1, d < 10) → (∀ d ∈ l2, d < 10) →
      l1.map Nat.digitChar = l2.map Nat.digitChar → l1 = l2 := by
  intro l1
  induction l1 with
  | nil => intro l2 _ _ h; cases l2 <;> simp_all
  | cons a l1 ih =>
    intro l2 h1 h2 h
    cases l2 with
    | nil => simp at h
    | cons b l2 =>
      simp at h
      have ha : a < 10 := h1 a (by simp)
      have hb : b < 10 := h2 b (by simp)
      have hab : a = b := digitChar_inj_lt a ha b hb h.1
      have : l1 = l2 := ih l2 (fun d hd => h1 d (by simp [hd])) (fun d hd => h2 d (by simp [hd])) h.2
      simp [hab, this]

theorem natToStr_injective : Function.Injective natToStr := by
  intro a b h
  unfold natToStr at h
  by_cases ha : a = 0 <;> by_cases hb : b = 0
  · omega
  · exfalso
    simp [ha, hb] at h
    have hd := congrArg String.data h
    simp at hd
    have : (digitsRevAux b b).map Nat.digitChar = ['0'] := by
      have := congrArg List.reverse hd
      simpa using this.symm
    rw [digitsRevAux_eq_digits b b (le_refl b)] at this
    cases hdig : Nat.digits 10 b with
    | nil => rw [hdig] at this; simp at this
    | cons d ds =>
      rw [hdig] at this
      cases ds with
      | cons _ _ => simp at this
      | nil =>
        simp at this
        have hd10 : d < 10 := by
          have := Nat.digits_lt_base (by norm_num : 1 < 10) (by rw [hdig]; simp : d ∈ Nat.digits 10 b)
          exact this
        have hd0 : d = 0 := digitChar_inj_lt d hd10 0 (by norm_num) (by simpa using this)
        have : b = Nat.ofDigits 10 (Nat.digits 10 b) := (Nat.ofDigits_digits 10 b).symm
        rw [hdig, hd0] at this
        simp [Nat.ofDigits] at this
        exact hb this
  · exfalso
    simp [ha, hb] at h
    have hd := congrArg String.data h
    simp at hd
    have : (digitsRevAux a a).map Nat.digitChar = ['0'] := by
      have := congrArg List.reverse hd
      simpa using this
    rw [digitsRevAux_eq_digits a a (le_refl a)] at this
    cases hdig : Nat.digits 10 a with
    | nil => rw [hdig] at this; simp at this
    | cons d ds =>
      rw [hdig] at this
      cases ds with
      | cons _ _ => simp at this
      | nil =>
        simp at this
        have hd10 : d < 10 := by
          have := Nat.digits_lt_base (by norm_num : 1 < 10) (by rw [hdig]; simp : d ∈ Nat.digits 10 a)
          exact this
        have hd0 : d = 0 := digitChar_inj_lt d hd10 0 (by norm_num) (by simpa using this)
        have : a = Nat.ofDigits 10 (Nat.digits 10 a) := (Nat.ofDigits_digits 10 a).symm
        rw [hdig, hd0] at this
        simp [Nat.ofDigits] at this
        exact ha this
  · simp [ha, hb] at h
    have hd := congrArg String.data h
    simp at hd
    have hrev := congrArg List.reverse hd
    simp at hrev
    have hmap := mapDigitChar_inj (digitsRevAux a a) (digitsRevAux b b)
      (fun d hdm => digitsRevAux_lt_ten a a d hdm)
      (fun d hdm => digitsRevAux_lt_ten b b d hdm) hrev
    rw [digitsRevAux_eq_digits a a (le_refl a), digitsRevAux_eq_digits b b (le_refl b)] at hmap
    have := congrArg (Nat.ofDigits 10) hmap
    rwa [Nat.ofDigits_digits, Nat.ofDigits_digits] at this

theorem append_sep_inj :
    ∀ (l1 l2 r1 r2 : List Char), '_' ∉ l1 → '_' ∉ l2 →
      l1 ++ '_' :: r1 = l2 ++ '_' :: r2 → l1 = l2 ∧ r1 = r2 := by
  intro l1
  induction l1 with
  | nil =>
    intro l2 r1 r2 _ h2 h
    cases l2 with
    | nil => simp_all
    | cons c l2 =>
      exfalso
      simp at h
      refine h2 ?_
      rw [← h.1]
      exact List.mem_cons_self _ _
  | cons c l1 ih =>
    intro l2 r1 r2 h1 h2 h
    cases l2 with
    | nil =>
      exfalso
      simp at h
      refine h1 ?_
      rw [h.1]
      exact List.mem_cons_self _ _
    | cons c2 l2 =>
      simp at h
      have hrest := ih l2 r1 r2 (fun hm => h1 (by simp [hm])) (fun hm => h2 (by simp [hm])) h.2
      exact ⟨by simp [h.1, hrest.1], hrest.2⟩

theorem generateId_data (p : String) (t r : Nat) :
    (generateId p t r).data =
      p.data ++ '_' :: ((natToStr t).data ++ '_' :: (natToStr r).data) := by
  simp [generateId, String.data_append]

theorem generateId_inj {p q : String} (hp : '_' ∉ p.data) (hq : '_' ∉ q.data)
    {t r t' r' : Nat} (h : generateId p t r = generateId q t' r') :
    p = q ∧ t = t' ∧ r = r' := by
  have hd := congrArg String.data h
  rw [generateId_data, generateId_data] at hd
  have h1 := append_sep_inj p.data q.data _ _ hp hq hd
  have h2 := append_sep_inj (natToStr t).data (natToStr t').data _ _
    (natToStr_no_underscore t) (natToStr_no_underscore t') h1.2
  refine ⟨String.ext h1.1, natToStr_injective (String.ext h2.1), natToStr_injective (String.ext h2.2)⟩

/-! Dirty-tracking helper lemmas. -/

theorem find?_isSome_iff_filter_lt (p : α → Bool) (l : List α) :
    (l.find? p).isSome = true ↔ (l.filter fun a => !(p a)).length < l.length := by
  rw [List.find?_isSome, List.length_filter_lt_length_iff_exists]
  simp

theorem getCategory_isSome_iff (s : DataManager) (cid : String) :
    (s.getCategory cid).isSome = true ↔
      (s.data.filter fun c => !(c.id == cid)).length < s.data.length :=
  find?_isSome_iff_filter_lt _ _

/-- C1: every CRUD mutation with a nonexistent id/categoryId leaves the dirty
flag untouched and never fires the callback, while a call with an existing
target sets the flag and fires the registered callback exactly once.  For
`updateCategory`/`deleteCategory`/`addLink`/`addBulkLinks` the target is the
category `cid`; for `updateLink`/`deleteLink` it is the link `lid` inside
category `cid`. -/
theorem claim_c1_dirty_tracking (s : DataManager) (hcb : s.hasOnDirty = true)
    (cid lid title : String) (d : LinkData) (ds : List LinkData)
    (now rand : Nat) (draws : Nat → Nat × Nat) :
    ((s.getCategory cid).isSome = false →
        ((s.updateCategory cid title).hasUnsavedChanges = s.hasUnsavedChanges ∧
          (s.updateCategory cid title).dirtyCalls = s.dirtyCalls) ∧
        ((s.deleteCategory cid).hasUnsavedChanges = s.hasUnsavedChanges ∧
          (s.deleteCategory cid).dirtyCalls = s.dirtyCalls) ∧
        ((s.addLink cid d now rand).hasUnsavedChanges = s.hasUnsavedChanges ∧
          (s.addLink cid d now rand).dirtyCalls = s.dirtyCalls) ∧
        ((s.addBulkLinks cid ds draws).hasUnsavedChanges = s.hasUnsavedChanges ∧
          (s.addBulkLinks cid ds draws).dirtyCalls = s.dirtyCalls)) ∧
    ((s.getCategory cid).isSome = true →
        (s.updateCategory cid title).hasUnsavedChanges = true ∧
        (s.updateCategory cid title).dirtyCalls = s.dirtyCalls + 1 ∧
        (s.deleteCategory cid).hasUnsavedChanges = true ∧
        (s.deleteCategory cid).dirtyCalls = s.dirtyCalls + 1 ∧
        (s.addLink cid d now rand).hasUnsavedChanges = true ∧
        (s.addLink cid d now rand).dirtyCalls = s.dirtyCalls + 1 ∧
        (s.addBulkLinks cid ds draws).hasUnsavedChanges = true ∧
        (s.addBulkLinks cid ds draws).dirtyCalls = s.dirtyCalls + 1) ∧
    ((s.getLink cid lid).isSome = false →
        ((s.updateLink cid lid d).hasUnsavedChanges = s.hasUnsavedChanges ∧
          (s.updateLink cid lid d).dirtyCalls = s.dirtyCalls) ∧
        ((s.deleteLink cid lid).hasUnsavedChanges = s.hasUnsavedChanges ∧
          (s.deleteLink cid lid).dirtyCalls = s.dirtyCalls)) ∧
    ((s.getLink cid lid).isSome = true →
        (s.updateLink cid lid d).hasUnsavedChanges = true ∧
        (s.updateLink cid lid d).dirtyCalls = s.dirtyCalls + 1 ∧
        (s.deleteLink cid lid).hasUnsavedChanges = true ∧
        (s.deleteLink cid lid).dirtyCalls = s.dirtyCalls + 1) := by
  refine ⟨?_, ?_, ?_, ?_⟩
  · intro h
    cases hc : s.getCategory cid with
    | some c => rw [hc] at h; simp at h
    | none =>
      have hnotlt : ¬ ((s.data.filter fun c => !(c.id == cid)).length < s.data.length) := by
        rw [← getCategory_isSome_iff]
        simp [hc]
      refine ⟨⟨?_, ?_⟩, ⟨?_, ?_⟩, ⟨?_, ?_⟩, ⟨?_, ?_⟩⟩ <;>
        simp [DataManager.updateCategory, DataManager.deleteCategory, DataManager.addLink,
          DataManager.addBulkLinks, hc, hnotlt]
  · intro h
    cases hc : s.getCategory cid with
    | none => rw [hc] at h; simp at h
    | some c =>
      have hlt : (s.data.filter fun c => !(c.id == cid)).length < s.data.length := by
        rw [← getCategory_isSome_iff]
        simp [hc]
      refine ⟨?_, ?_, ?_, ?_, ?_, ?_, ?_, ?_⟩ <;>
        simp [DataManager.updateCategory, DataManager.deleteCategory, DataManager.addLink,
          DataManager.addBulkLinks, DataManager.markAsDirty, hc, hlt, hcb]
  · intro h
    cases hc : s.getCategory cid with
    | none =>
      refine ⟨⟨?_, ?_⟩, ⟨?_, ?_⟩⟩ <;>
        simp [DataManager.updateLink, DataManager.deleteLink, hc]
    | some c =>
      simp only [DataManager.getLink, hc] at h
      cases hl : c.links.find? (fun l => l.id == lid) with
      | some l => rw [hl] at h; simp at h
      | none =>
        have hnotlt : ¬ ((c.links.filter fun l => !(l.id == lid)).length < c.links.length) := by
          rw [← find?_isSome_iff_filter_lt]
          simp [hl]
        refine ⟨⟨?_, ?_⟩, ⟨?_, ?_⟩⟩ <;>
          simp [DataManager.updateLink, DataManager.deleteLink, hc, hl, hnotlt]
  · intro h
    cases hc : s.getCategory cid with
    | none => simp only [DataManager.getLink, hc] at h; simp at h
    | some c =>
      simp only [DataManager.getLink, hc] at h
      cases hl : c.links.find? (fun l => l.id == lid) with
      | none => rw [hl] at h; simp at h
      | some l =>
        have hlt : (c.links.filter fun l => !(l.id == lid)).length < c.links.length := by
          rw [← find?_isSome_iff_filter_lt]
          simp [hl]
        refine ⟨?_, ?_, ?_, ?_⟩ <;>
          simp [DataManager.updateLink, DataManager.deleteLink, DataManager.markAsDirty,
            hc, hl, hlt, hcb]

/-- A concrete stored link, matching the shape used in the repository's tests. -/
def exLink1 : Link :=
  { id := "l1", title := some "Link 1", url := some "http://example.com",
    icon := none, badge := none, memo := none }

/-- A concrete store with one category `c1` holding one link `l1`, a registered
callback, and a clean flag. -/
def exC1 : DataManager :=
  { data := [{ id := "c1", title := "Category 1", isOpen := true, links := [exLink1] }]
    allPortals := []
    hasUnsavedChanges := false
    hasOnDirty := true
    dirtyCalls := 0 }

/-- An empty caller-supplied link payload. -/
def exLD : LinkData :=
  { id := none, title := none, url := none, icon := none, badge := none, memo := none }

/-- A constant draw stream for bulk adds. -/
def exDraws : Nat → Nat × Nat := fun _ => (0, 0)

/-- Witness for C1 on the concrete store: existing targets `c1`/`l1` set the
flag and fire the callback once, nonexistent targets `zz` change neither. -/
theorem claim_c1_dirty_tracking_witness :
    ((exC1.updateCategory "c1" "t").hasUnsavedChanges = true ∧
      (exC1.updateCategory "c1" "t").dirtyCalls = exC1.dirtyCalls + 1 ∧
      (exC1.deleteCategory "c1").hasUnsavedChanges = true ∧
      (exC1.deleteCategory "c1").dirtyCalls = exC1.dirtyCalls + 1 ∧
      (exC1.addLink "c1" exLD 0 0).hasUnsavedChanges = true ∧
      (exC1.addLink "c1" exLD 0 0).dirtyCalls = exC1.dirtyCalls + 1 ∧
      (exC1.addBulkLinks "c1" [] exDraws).hasUnsavedChanges = true ∧
      (exC1.addBulkLinks "c1" [] exDraws).dirtyCalls = exC1.dirtyCalls + 1) ∧
    (((exC1.updateCategory "zz" "t").hasUnsavedChanges = exC1.hasUnsavedChanges ∧
        (exC1.updateCategory "zz" "t").dirtyCalls = exC1.dirtyCalls) ∧
      ((exC1.deleteCategory "zz").hasUnsavedChanges = exC1.hasUnsavedChanges ∧
        (exC1.deleteCategory "zz").dirtyCalls = exC1.dirtyCalls) ∧
      ((exC1.addLink "zz" exLD 0 0).hasUnsavedChanges = exC1.hasUnsavedChanges ∧
        (exC1.addLink "zz" exLD 0 0).dirtyCalls = exC1.dirtyCalls) ∧
      ((exC1.addBulkLinks "zz" [] exDraws).hasUnsavedChanges = exC1.hasUnsavedChanges ∧
        (exC1.addBulkLinks "zz" [] exDraws).dirtyCalls = exC1.dirtyCalls)) ∧
    ((exC1.updateLink "c1" "l1" exLD).hasUnsavedChanges = true ∧
      (exC1.updateLink "c1" "l1" exLD).dirtyCalls = exC1.dirtyCalls + 1 ∧
      (exC1.deleteLink "c1" "l1").hasUnsavedChanges = true ∧
      (exC1.deleteLink "c1" "l1").dirtyCalls = exC1.dirtyCalls + 1) ∧
    (((exC1.updateLink "c1" "zz" exLD).hasUnsavedChanges = exC1.hasUnsavedChanges ∧
        (exC1.updateLink "c1" "zz" exLD).dirtyCalls = exC1.dirtyCalls) ∧
      ((exC1.deleteLink "c1" "zz").hasUnsavedChanges = exC1.hasUnsavedChanges ∧
        (exC1.deleteLink "c1" "zz").dirtyCalls = exC1.dirtyCalls)) :=
  ⟨(claim_c1_dirty_tracking exC1 rfl "c1" "l1" "t" exLD [] 0 0 exDraws).2.1 (by decide),
    (claim_c1_dirty_tracking exC1 rfl "zz" "zz" "t" exLD [] 0 0 exDraws).1 (by decide),
    (claim_c1_dirty_tracking exC1 rfl "c1" "l1" "t" exLD [] 0 0 exDraws).2.2.2 (by decide),
    (claim_c1_dirty_tracking exC1 rfl "c1" "zz" "t" exLD [] 0 0 exDraws).2.2.1 (by decide)⟩

/-- C2: `moveCategory(fromIndex, toIndex)` removes the element at `fromIndex`
and reinserts it at `toIndex` of the shortened sequence (with JS splice
clamping the insert position to the new length), leaves the sequence unchanged
whenever `fromIndex ∉ [0, length)` or `toIndex ∉ [0, length]`, and `moveLink`
has the same semantics scoped to the links of the category at `catIndex`. -/
theorem claim_c2_move_semantics (s : DataManager) (f t ci : Int) :
    ((0 ≤ f ∧ f < (s.data.length : Int) ∧ 0 ≤ t ∧ t ≤ (s.data.length : Int)) →
      ∀ item, s.data[f.toNat]? = some item →
        (s.moveCategory f t).data =
          (s.data.eraseIdx f.toNat).insertIdx
            (min t.toNat (s.data.eraseIdx f.toNat).length) item) ∧
    (¬(0 ≤ f ∧ f < (s.data.length : Int) ∧ 0 ≤ t ∧ t ≤ (s.data.length : Int)) →
      (s.moveCategory f t).data = s.data) ∧
    (∀ cat, (if ci < 0 then none else s.data[ci.toNat]?) = some cat →
      ((0 ≤ f ∧ f < (cat.links.length : Int) ∧ 0 ≤ t ∧ t ≤ (cat.links.length : Int)) →
        ∀ item, cat.links[f.toNat]? = some item →
          (s.moveLink ci f t).data =
            s.data.set ci.toNat
              { cat with
                links := (cat.links.eraseIdx f.toNat).insertIdx
                  (min t.toNat (cat.links.eraseIdx f.toNat).length) item }) ∧
      (¬(0 ≤ f ∧ f < (cat.links.length : Int) ∧ 0 ≤ t ∧ t ≤ (cat.links.length : Int)) →
        (s.moveLink ci f t).data = s.data)) ∧
    ((if ci < 0 then none else s.data[ci.toNat]?) = none →
      (s.moveLink ci f t).data = s.data) := by
  refine ⟨?_, ?_, ?_, ?_⟩
  · intro hin item hitem
    have hcond : ¬(f < 0 ∨ f ≥ (s.data.length : Int) ∨ t < 0 ∨ t > (s.data.length : Int)) := by
      omega
    simp only [DataManager.moveCategory, if_neg hcond, hitem]
    rfl
  · intro hout
    have hcond : f < 0 ∨ f ≥ (s.data.length : Int) ∨ t < 0 ∨ t > (s.data.length : Int) := by
      omega
    simp only [DataManager.moveCategory, if_pos hcond]
  · intro cat hcat
    constructor
    · intro hin item hitem
      have hcond : ¬(f < 0 ∨ f ≥ (cat.links.length : Int) ∨ t < 0 ∨
          t > (cat.links.length : Int)) := by omega
      simp only [DataManager.moveLink, hcat, if_neg hcond, hitem]
      rfl
    · intro hout
      have hcond : f < 0 ∨ f ≥ (cat.links.length : Int) ∨ t < 0 ∨
          t > (cat.links.length : Int) := by omega
      simp only [DataManager.moveLink, hcat, if_pos hcond]
  · intro hnone
    simp only [DataManager.moveLink, hnone]

/-- C8: `moveCategory`/`moveLink` mark dirty and fire the callback exactly once
whenever the indices are in range (including `fromIndex = toIndex`), and change
neither the flag nor the callback count when any index is out of range or the
category index resolves to nothing. -/
theorem claim_c8_move_dirty (s : DataManager) (hcb : s.hasOnDirty = true) (f t ci : Int) :
    ((0 ≤ f ∧ f < (s.data.length : Int) ∧ 0 ≤ t ∧ t ≤ (s.data.length : Int)) →
      (s.moveCategory f t).hasUnsavedChanges = true ∧
      (s.moveCategory f t).dirtyCalls = s.dirtyCalls + 1) ∧
    (¬(0 ≤ f ∧ f < (s.data.length : Int) ∧ 0 ≤ t ∧ t ≤ (s.data.length : Int)) →
      (s.moveCategory f t).hasUnsavedChanges = s.hasUnsavedChanges ∧
      (s.moveCategory f t).dirtyCalls = s.dirtyCalls) ∧
    (∀ cat, (if ci < 0 then none else s.data[ci.toNat]?) = some cat →
      ((0 ≤ f ∧ f < (cat.links.length : Int) ∧ 0 ≤ t ∧ t ≤ (cat.links.length : Int)) →
        (s.moveLink ci f t).hasUnsavedChanges = true ∧
        (s.moveLink ci f t).dirtyCalls = s.dirtyCalls + 1) ∧
      (¬(0 ≤ f ∧ f < (cat.links.length : Int) ∧ 0 ≤ t ∧ t ≤ (cat.links.length : Int)) →
        (s.moveLink ci f t).hasUnsavedChanges = s.hasUnsavedChanges ∧
        (s.moveLink ci f t).dirtyCalls = s.dirtyCalls)) ∧
    ((if ci < 0 then none else s.data[ci.toNat]?) = none →
      (s.moveLink ci f t).hasUnsavedChanges = s.hasUnsavedChanges ∧
      (s.moveLink ci f t).dirtyCalls = s.dirtyCalls) := by
  refine ⟨?_, ?_, ?_, ?_⟩
  · intro hin
    have hcond : ¬(f < 0 ∨ f ≥ (s.data.length : Int) ∨ t < 0 ∨ t > (s.data.length : Int)) := by
      omega
    have hf : f.toNat < s.data.length := by omega
    have hitem : s.data[f.toNat]? = some (s.data[f.toNat]) := List.getElem?_eq_getElem hf
    simp [DataManager.moveCategory, if_neg hcond, hitem, DataManager.markAsDirty, hcb]
  · intro hout
    have hcond : f < 0 ∨ f ≥ (s.data.length : Int) ∨ t < 0 ∨ t > (s.data.length : Int) := by
      omega
    simp [DataManager.moveCategory, if_pos hcond]
  · intro cat hcat
    constructor
    · intro hin
      have hcond : ¬(f < 0 ∨ f ≥ (cat.links.length : Int) ∨ t < 0 ∨
          t > (cat.links.length : Int)) := by omega
      have hf : f.toNat < cat.links.length := by omega
      have hitem : cat.links[f.toNat]? = some (cat.links[f.toNat]) := List.getElem?_eq_getElem hf
      simp [DataManager.moveLink, hcat, if_neg hcond, hitem, DataManager.markAsDirty, hcb]
    · intro hout
      have hcond : f < 0 ∨ f ≥ (cat.links.length : Int) ∨ t < 0 ∨
          t > (cat.links.length : Int) := by omega
      simp [DataManager.moveLink, hcat, if_pos hcond]
  · intro hnone
    simp [DataManager.moveLink, hnone]

def catA : Category := { id := "a", title := "A", isOpen := true, links := [] }

def catB : Category := { id := "b", title := "B", isOpen := true, links := [] }

def catC : Category := { id := "c", title := "C", isOpen := true, links := [] }

def exMv3 : DataManager :=
  { data := [catA, catB, catC], allPortals := [], hasUnsavedChanges := false,
    hasOnDirty := true, dirtyCalls := 0 }

def exMv2 : DataManager :=
  { data := [catA, catB], allPortals := [], hasUnsavedChanges := false,
    hasOnDirty := true, dirtyCalls := 0 }

def linkX : Link := { id := "x", title := none, url := none, icon := none, badge := none, memo := none }

def linkY : Link := { id := "y", title := none, url := none, icon := none, badge := none, memo := none }

def catL : Category := { id := "cl", title := "L", isOpen := true, links := [linkX, linkY] }

def exMvL : DataManager :=
  { data := [catL], allPortals := [], hasUnsavedChanges := false,
    hasOnDirty := true, dirtyCalls := 0 }

/-- Witness for C2: `moveCategory(0,2)` on `[A,B,C]` yields `[B,C,A]`,
`moveCategory(1,0)` on `[A,B]` yields `[B,A]`, out-of-range indices leave the
sequence unchanged, and `moveLink` behaves the same on a category's links. -/
theorem claim_c2_move_semantics_witness :
    (exMv3.moveCategory 0 2).data = [catB, catC, catA] ∧
    (exMv2.moveCategory 1 0).data = [catB, catA] ∧
    (exMv3.moveCategory (-1) 1).data = exMv3.data ∧
    (exMv3.moveCategory 0 4).data = exMv3.data ∧
    (exMvL.moveLink 0 1 0).data = [{ catL with links := [linkY, linkX] }] ∧
    (exMvL.moveLink 1 0 1).data = exMvL.data := by
  refine ⟨?_, ?_, ?_, ?_, ?_, ?_⟩
  · exact ((claim_c2_move_semantics exMv3 0 2 0).1 (by decide) catA (by decide)).trans (by decide)
  · exact ((claim_c2_move_semantics exMv2 1 0 0).1 (by decide) catB (by decide)).trans (by decide)
  · exact (claim_c2_move_semantics exMv3 (-1) 1 0).2.1 (by decide)
  · exact (claim_c2_move_semantics exMv3 0 4 0).2.1 (by decide)
  · exact (((claim_c2_move_semantics exMvL 1 0 0).2.2.1 catL (by decide)).1 (by decide) linkY
      (by decide)).trans (by decide)
  · exact (claim_c2_move_semantics exMvL 0 1 1).2.2.2 (by decide)

/-- Witness for C8: in-range moves (including `fromIndex = toIndex`) set the
flag and fire the callback once; out-of-range moves and a missing category
index change neither. -/
theorem claim_c8_move_dirty_witness :
    (exMv3.moveCategory 1 1).hasUnsavedChanges = true ∧
    (exMv3.moveCategory 1 1).dirtyCalls = exMv3.dirtyCalls + 1 ∧
    (exMv3.moveCategory 0 4).hasUnsavedChanges = exMv3.hasUnsavedChanges ∧
    (exMv3.moveCategory 0 4).dirtyCalls = exMv3.dirtyCalls ∧
    (exMvL.moveLink 0 0 0).hasUnsavedChanges = true ∧
    (exMvL.moveLink 0 0 0).dirtyCalls = exMvL.dirtyCalls + 1 ∧
    (exMvL.moveLink 2 0 0).hasUnsavedChanges = exMvL.hasUnsavedChanges ∧
    (exMvL.moveLink 2 0 0).dirtyCalls = exMvL.dirtyCalls := by
  have h1 := (claim_c8_move_dirty exMv3 rfl 1 1 0).1 (by decide)
  have h2 := (claim_c8_move_dirty exMv3 rfl 0 4 0).2.1 (by decide)
  have h3 := ((claim_c8_move_dirty exMvL rfl 0 0 0).2.2.1 catL (by decide)).1 (by decide)
  have h4 := (claim_c8_move_dirty exMvL rfl 0 0 2).2.2.2 (by decide)
  exact ⟨h1.1, h1.2, h2.1, h2.2, h3.1, h3.2, h4.1, h4.2⟩

/-! Association-list lemmas for the portals map. -/

theorem lookup_map_update (k : String) (v : List Category) :
    ∀ ps : List (String × List Category), ps.any (fun p => p.1 == k) = true →
      (ps.map (fun p => if p.1 == k then (k, v) else p)).lookup k = some v := by
  intro ps
  induction ps with
  | nil => intro h; simp at h
  | cons q ps ih =>
    intro h
    by_cases h1 : (q.1 == k) = true
    · rw [List.map_cons, if_pos h1]
      simp [List.lookup]
    · rw [List.map_cons, if_neg h1]
      have h2 : ps.any (fun p => p.1 == k) = true := by
        rcases List.any_eq_true.mp h with ⟨x, hx, hpx⟩
        rcases List.mem_cons.mp hx with rfl | hx2
        · exact absurd hpx h1
        · exact List.any_eq_true.mpr ⟨x, hx2, hpx⟩
      have hqk : q.1 ≠ k := by simpa using h1
      have hne : (k == q.1) = false := beq_eq_false_iff_ne.mpr (fun hkq => hqk hkq.symm)
      simpa [List.lookup, hne] using ih h2

theorem lookup_append_single (k : String) (v : List Category) :
    ∀ ps : List (String × List Category), ps.any (fun p => p.1 == k) = false →
      (ps ++ [(k, v)]).lookup k = some v := by
  intro ps
  induction ps with
  | nil => simp [List.lookup]
  | cons q ps ih =>
    intro h
    rw [List.any_cons] at h
    rcases Bool.or_eq_false_iff.mp h with ⟨h1, h2⟩
    have hqk : q.1 ≠ k := by simpa using h1
    have hne : (k == q.1) = false := beq_eq_false_iff_ne.mpr (fun hkq => hqk hkq.symm)
    rw [List.cons_append]
    simp [List.lookup, hne, ih h2]

theorem lookup_updateAssoc (ps : List (String × List Category)) (k : String)
    (v : List Category) : (updateAssoc ps k v).lookup k = some v := by
  unfold updateAssoc
  by_cases h : ps.any (fun p => p.1 == k)
  · simp only [if_pos h]
    exact lookup_map_update k v ps h
  · simp only [if_neg h]
    have hfalse : ps.any (fun p => p.1 == k) = false := by
      cases hb : ps.any (fun p => p.1 == k)
      · rfl
      · exact absurd hb h
    exact lookup_append_single k v ps hfalse

/-- C4: saving and then loading the produced document under the same portal id
restores exactly the pre-save category sequence (order, link order and all field
values), and the load reports success with that data. -/
theorem claim_c4_save_load_roundtrip (s : DataManager) (pid : String) :
    ((s.save pid).1.load pid (Except.ok (s.save pid).2)).1.data = s.data ∧
    ((s.save pid).1.load pid (Except.ok (s.save pid).2)).2 = LoadResult.ok s.data := by
  simp [DataManager.save, DataManager.load, DataManager.markAsClean, lookup_updateAssoc]

/-- C5: every failure of `load` (fetch error, HTTP error, parse error, and the
TypeError raised by `parsed.portals` on a JSON `null` document) returns the
store state completely unchanged together with a structured error result, and
every failure of `importData` (read/parse error or invalid document shape)
rethrows while leaving the state completely unchanged. -/
theorem claim_c5_failure_isolation (s : DataManager) (pid : String) (e : JsError) :
    s.load pid (Except.error e) = (s, LoadResult.err e) ∧
    s.load pid (Except.ok Doc.jsNull) = (s, LoadResult.err JsError.typeError) ∧
    s.importData pid (Except.error e) = (s, some e) ∧
    s.importData pid (Except.ok Doc.jsNull) = (s, some JsError.invalidFormat) ∧
    s.importData pid (Except.ok Doc.prim) = (s, some JsError.invalidFormat) ∧
    s.importData pid (Except.ok (Doc.obj none)) = (s, some JsError.invalidFormat) := by
  refine ⟨rfl, rfl, rfl, rfl, rfl, rfl⟩

/-- C10: a successfully parsed document with no entry for the requested portal
id — an object whose portals map lacks the key, or a legacy top-level array
loaded under a portal id other than `default` — yields a success result and
replaces the store's category collection with the empty sequence. -/
theorem claim_c10_missing_portal (s : DataManager) (pid : String)
    (ps : List (String × List Category)) (cats : List Category) :
    (ps.lookup pid = none →
      (s.load pid (Except.ok (Doc.obj (some ps)))).1.data = [] ∧
      (s.load pid (Except.ok (Doc.obj (some ps)))).2 = LoadResult.ok []) ∧
    (pid ≠ "default" →
      (s.load pid (Except.ok (Doc.arr cats))).1.data = [] ∧
      (s.load pid (Except.ok (Doc.arr cats))).2 = LoadResult.ok []) := by
  constructor
  · intro h
    simp [DataManager.load, h]
  · intro h
    have hne : (pid == "default") = false := by
      simp only [beq_eq_false_iff_ne]
      exact h
    simp [DataManager.load, List.lookup, hne]

/-- Witness for C10 on concrete documents: a portals object without the key
`default`, and a legacy array loaded under portal id `p2`. -/
theorem claim_c10_missing_portal_witness :
    ((exMv3.load "default" (Except.ok (Doc.obj (some [("other", [catA])])))).1.data = [] ∧
      (exMv3.load "default" (Except.ok (Doc.obj (some [("other", [catA])])))).2 =
        LoadResult.ok []) ∧
    ((exMv3.load "p2" (Except.ok (Doc.arr [catA, catB]))).1.data = [] ∧
      (exMv3.load "p2" (Except.ok (Doc.arr [catA, catB]))).2 = LoadResult.ok []) :=
  ⟨(claim_c10_missing_portal exMv3 "default" [("other", [catA])] []).1 (by decide),
    (claim_c10_missing_portal exMv3 "p2" [] [catA, catB]).2 (by decide)⟩

/-- Counterexample to C6 as stated: the parsed sink document produced by `save`
is not the store's category array — on a concrete store it is a portals object,
not the array of categories. -/
theorem claim_c6_counterexample : (exMv3.save "default").2 ≠ Doc.arr exMv3.data := by
  decide

/-- C6 amended: `save` hands the sink the serialization of
`{portals: allPortals}` with the active portal's entry replaced by the current
category array — so the current array appears under the portal id inside the
`portals` object, rather than being the whole document. -/
theorem claim_c6_save_doc (s : DataManager) (pid : String) :
    (s.save pid).2 = Doc.obj (some (updateAssoc s.allPortals pid s.data)) ∧
    (updateAssoc s.allPortals pid s.data).lookup pid = some s.data :=
  ⟨rfl, lookup_updateAssoc s.allPortals pid s.data⟩

/-! Identity of stored entities. -/

/-- The ids of a category's links, in order. -/
def linkIds (c : Category) : List String := c.links.map (fun l => l.id)

/-- The id skeleton of a stored category list: each category's id with its
links' ids. -/
def idsOf (l : List Category) : List (String × List String) :=
  l.map (fun c => (c.id, linkIds c))

theorem map_updateFirst {α β : Type} (g : α → β) (p : α → Bool) (f : α → α)
    (p' : β → Bool) (f' : β → β)
    (hp : ∀ x, p' (g x) = p x) (hf : ∀ x, p x = true → g (f x) = f' (g x)) :
    ∀ l : List α, (updateFirst p f l).map g = updateFirst p' f' (l.map g) := by
  intro l
  induction l with
  | nil => rfl
  | cons x xs ih =>
    by_cases hx : p x = true
    · simp [updateFirst, hx, hp, hf x hx]
    · have hx' : p x = false := by
        cases hb : p x
        · rfl
        · exact absurd hb hx
      simp [updateFirst, hx', hp, ih]

theorem map_updateFirst_invariant {α β : Type} (g : α → β) (p : α → Bool) (f : α → α)
    (hf : ∀ x, g (f x) = g x) : ∀ l : List α, (updateFirst p f l).map g = l.map g := by
  intro l
  induction l with
  | nil => rfl
  | cons x xs ih =>
    by_cases hx : p x = true
    · simp [updateFirst, hx, hf]
    · have hx' : p x = false := by
        cases hb : p x
        · rfl
        · exact absurd hb hx
      simp [updateFirst, hx', ih]

theorem updateFirst_no_match {α : Type} (p : α → Bool) (f : α → α) :
    ∀ l : List α, (∀ x ∈ l, p x = false) → updateFirst p f l = l := by
  intro l
  induction l with
  | nil => intro _; rfl
  | cons x xs ih =>
    intro h
    have hx := h x (by simp)
    simp [updateFirst, hx, ih (fun y hy => h y (by simp [hy]))]

theorem snd_mem_of_mem_enumFrom {α : Type} :
    ∀ (l : List α) (n : Nat) (x : Nat × α), x ∈ List.enumFrom n l → x.2 ∈ l := by
  intro l
  induction l with
  | nil => intro n x h; simp [List.enumFrom] at h
  | cons a l ih =>
    intro n x h
    rw [List.enumFrom] at h
    rcases List.mem_cons.mp h with rfl | h2
    · simp
    · exact List.mem_cons_of_mem _ (ih _ _ h2)

/-- A caller payload carrying an `id` field. -/
def exEvilLD : LinkData :=
  { id := some "evil", title := none, url := none, icon := none, badge := none, memo := none }

/-- Counterexample to C7 as stated: on the concrete store, `updateLink` with a
payload that carries an `id` field overwrites the stored link's id (the link is
afterwards found under `evil` and no longer under `l1`), and `addLink` stores
the caller-supplied id instead of a freshly generated one. -/
theorem claim_c7_counterexample :
    (exC1.updateLink "c1" "l1" exEvilLD).getLink "c1" "l1" = none ∧
    ((exC1.updateLink "c1" "l1" exEvilLD).getLink "c1" "evil").isSome = true ∧
    ((exC1.addLink "c1" exEvilLD 7 3).getLink "c1" "evil").isSome = true ∧
    idsOf (exC1.updateLink "c1" "l1" exEvilLD).data ≠ idsOf exC1.data := by
  refine ⟨by decide, by decide, by decide, by decide⟩

/-- C7 amended: as long as caller-supplied link payloads carry no `id` field,
every id is assigned by the store at creation and never changed afterwards:
`addCategory` appends exactly the freshly generated category id,
`updateCategory` and `updateLink` leave the id skeleton untouched, and
`addLink`/`addBulkLinks` only append the freshly generated link ids to the
target category's id list. -/
theorem claim_c7_id_immutability (s : DataManager)
    (cid lid title : String) (d : LinkData) (ds : List LinkData)
    (now rand : Nat) (draws : Nat → Nat × Nat)
    (hd : d.id = none) (hds : ∀ x ∈ ds, x.id = none) :
    idsOf (s.addCategory title now rand).data =
      idsOf s.data ++ [(generateId "cat" now rand, [])] ∧
    idsOf (s.updateCategory cid title).data = idsOf s.data ∧
    idsOf (s.updateLink cid lid d).data = idsOf s.data ∧
    idsOf (s.addLink cid d now rand).data =
      updateFirst (fun q => q.1 == cid)
        (fun q => (q.1, q.2 ++ [generateId "link" now rand])) (idsOf s.data) ∧
    idsOf (s.addBulkLinks cid ds draws).data =
      updateFirst (fun q => q.1 == cid)
        (fun q => (q.1, q.2 ++ ds.enum.map
          (fun e => generateId "link" (draws e.1).1 (draws e.1).2)))
        (idsOf s.data) := by
  have hnomatch : s.getCategory cid = none →
      ∀ q ∈ idsOf s.data, (q.1 == cid) = false := by
    intro hc q hq
    rcases List.mem_map.mp hq with ⟨c, hcmem, rfl⟩
    have := List.find?_eq_none.mp hc c hcmem
    cases hb : (c.id == cid)
    · rfl
    · exact absurd hb this
  refine ⟨?_, ?_, ?_, ?_, ?_⟩
  · simp [DataManager.addCategory, DataManager.markAsDirty, idsOf, linkIds]
  · cases hc : s.getCategory cid with
    | none => simp [DataManager.updateCategory, hc]
    | some c =>
      simp only [DataManager.updateCategory, hc, DataManager.markAsDirty, idsOf]
      exact map_updateFirst_invariant (fun c : Category => (c.id, linkIds c))
        (fun c => c.id == cid) (fun c => { c with title := title }) (fun x => rfl) s.data
  · cases hc : s.getCategory cid with
    | none => simp [DataManager.updateLink, hc]
    | some c =>
      cases hl : c.links.find? (fun l => l.id == lid) with
      | none => simp [DataManager.updateLink, hc, hl]
      | some l =>
        simp only [DataManager.updateLink, hc, hl, DataManager.markAsDirty, idsOf]
        refine map_updateFirst_invariant _ _ _ (fun x => ?_) s.data
        simp only [linkIds]
        have hinner := map_updateFirst_invariant (fun l : Link => l.id)
          (fun l => l.id == lid) (fun l => assignLink l d)
          (fun l => by simp [assignLink, hd]) x.links
        simpa using hinner
  · cases hc : s.getCategory cid with
    | none =>
      rw [updateFirst_no_match _ _ _ (hnomatch hc)]
      simp [DataManager.addLink, hc]
    | some c =>
      simp only [DataManager.addLink, hc, DataManager.markAsDirty, idsOf]
      refine map_updateFirst (fun c : Category => (c.id, linkIds c))
        (fun c => c.id == cid)
        (fun c => { c with links := c.links ++ [mkLinkFromData (generateId "link" now rand) d] })
        (fun q => q.1 == cid)
        (fun q => (q.1, q.2 ++ [generateId "link" now rand]))
        (fun x => rfl) (fun x _ => ?_) s.data
      simp [linkIds, mkLinkFromData, hd]
  · cases hc : s.getCategory cid with
    | none =>
      rw [updateFirst_no_match _ _ _ (hnomatch hc)]
      simp [DataManager.addBulkLinks, hc]
    | some c =>
      simp only [DataManager.addBulkLinks, hc, DataManager.markAsDirty, idsOf]
      refine map_updateFirst (fun c : Category => (c.id, linkIds c))
        (fun c => c.id == cid)
        (fun c => { c with links := (c.links ++ ds.enum.map (fun p => mkLinkFromData (generateId "link" (draws p.1).1 (draws p.1).2) p.2)) })
        (fun q => q.1 == cid)
        (fun q => (q.1, q.2 ++ ds.enum.map
          (fun e => generateId "link" (draws e.1).1 (draws e.1).2)))
        (fun x => rfl) (fun x _ => ?_) s.data
      simp only [linkIds, List.map_append, List.map_map]
      have hmaps : List.map ((fun l : Link => l.id) ∘
            fun p : Nat × LinkData => mkLinkFromData (generateId "link" (draws p.1).1 (draws p.1).2) p.2) ds.enum =
          List.map (fun e : Nat × LinkData => generateId "link" (draws e.1).1 (draws e.1).2) ds.enum := by
        refine List.map_congr_left (fun e he => ?_)
        have h2 : e.2.id = none := hds e.2 (snd_mem_of_mem_enumFrom ds 0 e he)
        simp [mkLinkFromData, h2]
      rw [hmaps]

/-- Witness for the amended C7 on the concrete store: updating and adding with
id-free payloads preserves and extends the id skeleton as stated. -/
theorem claim_c7_id_immutability_witness :
    idsOf (exC1.addCategory "t" 1 2).data = idsOf exC1.data ++ [(generateId "cat" 1 2, [])] ∧
    idsOf (exC1.updateCategory "c1" "t").data = idsOf exC1.data ∧
    idsOf (exC1.updateLink "c1" "l1" exLD).data = idsOf exC1.data ∧
    idsOf (exC1.addLink "c1" exLD 1 2).data =
      updateFirst (fun q => q.1 == "c1")
        (fun q => (q.1, q.2 ++ [generateId "link" 1 2])) (idsOf exC1.data) ∧
    idsOf (exC1.addBulkLinks "c1" [exLD] exDraws).data =
      updateFirst (fun q => q.1 == "c1")
        (fun q => (q.1, q.2 ++ [exLD].enum.map
          (fun e => generateId "link" (exDraws e.1).1 (exDraws e.1).2)))
        (idsOf exC1.data) :=
  claim_c7_id_immutability exC1 "c1" "l1" "t" exLD [exLD] 1 2 exDraws rfl
    (fun x hx => by
      rcases List.mem_singleton.mp hx with rfl
      rfl)

/-! Uniqueness of generated ids over call sequences. -/

def exEmptyStore : DataManager :=
  { data := [], allPortals := [], hasUnsavedChanges := false,
    hasOnDirty := true, dirtyCalls := 0 }

/-- Counterexample to C9 as stated: two `addCategory` calls that observe the
same millisecond timestamp and the same random draw generate the identical id
`cat_0_0`, so the generated ids are not pairwise distinct. -/
theorem claim_c9_counterexample :
    (runAddOps exEmptyStore [(AddOp.cat "a", 0, 0), (AddOp.cat "b", 0, 0)]).2 =
      ["cat_0_0", "cat_0_0"] ∧
    ¬ ((runAddOps exEmptyStore
        [(AddOp.cat "a", 0, 0), (AddOp.cat "b", 0, 0)]).2.Pairwise (fun a b => a ≠ b)) := by
  refine ⟨by decide, by decide⟩

theorem pre_no_underscore (op : AddOp) : '_' ∉ (op.pre).data := by
  cases op <;> simp only [AddOp.pre] <;> decide

theorem runAddOps_ids_sublist :
    ∀ (ops : List (AddOp × Nat × Nat)) (s : DataManager),
      (runAddOps s ops).2.Sublist (ops.map (fun o => generateId o.1.pre o.2.1 o.2.2)) := by
  intro ops
  induction ops with
  | nil => intro s; simp [runAddOps]
  | cons o rest ih =>
    intro s
    obtain ⟨op, now, rand⟩ := o
    cases op with
    | cat title =>
      simp only [runAddOps, List.map_cons, AddOp.pre]
      exact List.Sublist.cons₂ _ (ih _)
    | link catId d =>
      cases hc : s.getCategory catId with
      | none =>
        simp only [runAddOps, hc, List.map_cons]
        exact List.Sublist.cons _ (ih _)
      | some c =>
        simp only [runAddOps, hc, List.map_cons, AddOp.pre]
        exact List.Sublist.cons₂ _ (ih _)

/-- C9 amended: over any sequence of `addCategory`/`addLink` calls in which no
two calls observe the same `(Date.now(), random)` pair, the generated ids are
pairwise distinct.  (As stated the claim fails: the id depends only on the
prefix and that pair, so repeated draws repeat ids.) -/
theorem claim_c9_id_uniqueness (s : DataManager) (ops : List (AddOp × Nat × Nat))
    (hdraws : ops.Pairwise (fun a b => a.2 ≠ b.2)) :
    (runAddOps s ops).2.Pairwise (fun a b => a ≠ b) := by
  have hmap : (ops.map (fun o => generateId o.1.pre o.2.1 o.2.2)).Pairwise
      (fun a b => a ≠ b) := by
    rw [List.pairwise_map]
    refine hdraws.imp ?_
    intro a b hne heq
    have hm := generateId_inj (pre_no_underscore a.1) (pre_no_underscore b.1) heq
    exact hne (Prod.ext hm.2.1 hm.2.2)
  exact List.Pairwise.sublist (runAddOps_ids_sublist ops s) hmap

/-- Witness for the amended C9: three calls with pairwise distinct
timestamp/random draws produce pairwise distinct ids. -/
theorem claim_c9_id_uniqueness_witness :
    (runAddOps exEmptyStore
      [(AddOp.cat "a", 0, 0), (AddOp.cat "b", 0, 1), (AddOp.cat "c", 1, 0)]).2.Pairwise
      (fun a b => a ≠ b) :=
  claim_c9_id_uniqueness exEmptyStore
    [(AddOp.cat "a", 0, 0), (AddOp.cat "b", 0, 1), (AddOp.cat "c", 1, 0)] (by decide)

/-! Heap lemmas for the deep-copy isolation claim. -/

theorem lookup_writeCell_ne (a b : Nat) (c : Category) (hab : a ≠ b) :
    ∀ cells, (writeCell cells b c).lookup a = cells.lookup a := by
  intro cells
  induction cells with
  | nil => rfl
  | cons p rest ih =>
    have hane : (a == b) = false := beq_eq_false_iff_ne.mpr hab
    by_cases hp : p.1 = b
    · have h2 : (a == p.1) = false := by rw [hp]; exact hane
      simp only [writeCell, List.map_cons, if_pos hp]
      simp only [List.lookup, hane, h2]
      simpa [writeCell] using ih
    · simp only [writeCell, List.map_cons, if_neg hp]
      cases hap : (a == p.1) with
      | true => simp [List.lookup, hap]
      | false =>
        simp only [List.lookup, hap]
        simpa [writeCell] using ih

theorem lookup_applyWrites_ne (a : Nat) :
    ∀ (ws : List (Nat × Category)) (cells : List (Nat × Category)),
      (∀ w ∈ ws, a ≠ w.1) → (applyWrites cells ws).lookup a = cells.lookup a := by
  intro ws
  induction ws with
  | nil => intro cells _; rfl
  | cons w ws ih =>
    intro cells h
    have hstep : applyWrites cells (w :: ws) = applyWrites (writeCell cells w.1 w.2) ws := rfl
    rw [hstep, ih _ (fun q hq => h q (by simp [hq]))]
    exact lookup_writeCell_ne a w.1 w.2 (h w (by simp)) cells

theorem lookup_keys_ne_none (a : Nat) :
    ∀ l : List (Nat × Category), (∀ p ∈ l, p.1 ≠ a) → l.lookup a = none := by
  intro l
  induction l with
  | nil => intro _; rfl
  | cons p rest ih =>
    intro h
    have hne : (a == p.1) = false := beq_eq_false_iff_ne.mpr (fun e => h p (by simp) e.symm)
    simp only [List.lookup, hne]
    exact ih (fun q hq => h q (by simp [hq]))

theorem lookup_append_keys_ne (a : Nat) (l2 : List (Nat × Category))
    (h2 : ∀ p ∈ l2, p.1 ≠ a) :
    ∀ l1 : List (Nat × Category), (l1 ++ l2).lookup a = l1.lookup a := by
  intro l1
  induction l1 with
  | nil => simpa using lookup_keys_ne_none a l2 h2
  | cons p rest ih =>
    cases hap : (a == p.1) with
    | true => simp [List.lookup, hap]
    | false => simp [List.lookup, hap, ih]

/-- C3: mutating the snapshot returned by `getData()` never changes the store.
The snapshot produced by `copySnapshot` lives at fresh heap addresses; after any
sequence of external writes confined to those snapshot addresses, reading the
store's own category array yields exactly the values it held before, so a
subsequent `getData()` returns the same categories, links, order and field
values. -/
theorem claim_c3_snapshot_isolation (h : HeapStore) (hwf : h.wf)
    (ws : List (Nat × Category)) (hws : ∀ w ∈ ws, w.1 ∈ (copySnapshot h).2) :
    readData { (copySnapshot h).1 with cells := applyWrites ((copySnapshot h).1).cells ws } =
      readData h := by
  simp only [readData, copySnapshot]
  refine List.map_congr_left (fun a ha => ?_)
  have ha_lt : a < h.next := hwf a ha
  have hwkeys : ∀ w ∈ ws, a ≠ w.1 := by
    intro w hw
    have hmem := hws w hw
    simp only [copySnapshot] at hmem
    rcases List.mem_map.mp hmem with ⟨i, hi, hwi⟩
    omega
  unfold lookupCell
  have hzipkeys : ∀ p ∈ (((List.range h.addrs.length).map (fun i => h.next + i)).zip
      (h.addrs.map (fun x => (List.lookup x h.cells).getD default))), p.1 ≠ a := by
    intro p hp
    have hfst := (List.of_mem_zip (by exact hp)).1
    rcases List.mem_map.mp hfst with ⟨i, hi, hpi⟩
    omega
  rw [lookup_applyWrites_ne a ws _ hwkeys, lookup_append_keys_ne a _ hzipkeys]

def exHeap : HeapStore :=
  { next := 2, cells := [(0, catA), (1, catB)], addrs := [0, 1] }

/-- Witness for C3: on a concrete two-category heap, overwriting both cells of
the snapshot (fresh addresses 2 and 3) leaves the store's readable data
unchanged. -/
theorem claim_c3_snapshot_isolation_witness :
    readData { (copySnapshot exHeap).1 with
      cells := applyWrites ((copySnapshot exHeap).1).cells [(2, catC), (3, catC)] } =
      readData exHeap :=
  claim_c3_snapshot_isolation exHeap (by decide) [(2, catC), (3, catC)] (by decide)
